import Mathlib

/-!
Verification of the buck-converter Ciss loss/thermal sweep program.

The program (src/app.py) computes, for a list of comparison switching
frequencies, the total MOSFET power loss and junction temperature over an
evenly spaced sweep of input capacitance, then reports the endpoint secant
slope of each curve rescaled to per-nanofarad units.

The arithmetic core is embedded over the rationals.  The degenerate-input
behaviour (division by zero) is embedded separately with an extended value
type modelling IEEE-style non-finite results, distinguishing Python float
division (which raises `ZeroDivisionError` on a zero divisor) from numpy
float64 division (which produces an infinity or NaN without raising).
-/

namespace BuckSim

/-- Fixed electrical and thermal parameters of the operating point, as read
from the sidebar of src/app.py (`Rdson` already converted from milliohms,
all in SI units except where noted). -/
structure Params where
  V_in : ℚ
  V_out : ℚ
  V_drive : ℚ
  I_driver : ℚ
  I_out : ℚ
  Rdson : ℚ
  Rtha : ℚ
  Tamb : ℚ
deriving DecidableEq

/-- Duty cycle, src/app.py line 44: `D = V_out / V_in`. -/
def D (p : Params) : ℚ := p.V_out / p.V_in

/-- Conduction loss, line 56: `P_cond = D * (I_out ** 2) * Rdson`. -/
def P_cond (p : Params) : ℚ := D p * p.I_out ^ 2 * p.Rdson

/-- Estimated switching transition time, line 60:
`t_sw_estimated = (Ciss * V_drive) / I_driver`. -/
def t_sw_estimated (p : Params) (Ciss : ℚ) : ℚ := (Ciss * p.V_drive) / p.I_driver

/-- Switching loss, line 61: `P_sw = 0.5 * V_in * I_out * t_sw_estimated * f_hz`. -/
def P_sw (p : Params) (Ciss f_hz : ℚ) : ℚ :=
  1 / 2 * p.V_in * p.I_out * t_sw_estimated p Ciss * f_hz

/-- Gate drive loss, line 64: `P_gate = (Ciss * V_drive) * V_drive * f_hz`. -/
def P_gate (p : Params) (Ciss f_hz : ℚ) : ℚ := (Ciss * p.V_drive) * p.V_drive * f_hz

/-- Total loss, line 66: `P_total = P_cond + P_sw + P_gate`. -/
def P_total (p : Params) (Ciss f_hz : ℚ) : ℚ :=
  P_cond p + P_sw p Ciss f_hz + P_gate p Ciss f_hz

/-- Junction temperature, line 69: `T_j = Tamb + (P_total * Rtha)`. -/
def T_j (p : Params) (Ciss f_hz : ℚ) : ℚ := p.Tamb + P_total p Ciss f_hz * p.Rtha

/-- `np.linspace a b n`: `n` evenly spaced samples from `a` to `b` inclusive,
sample `i` being `a + (b - a) * i / (n - 1)`. -/
def linspace (a b : ℚ) (n : ℕ) : List ℚ :=
  (List.range n).map (fun i : ℕ => a + (b - a) * (i : ℚ) / ((n : ℚ) - 1))

/-- Swept-axis grid in picofarads, line 42:
`ciss_range_pF = np.linspace(ciss_start_pF, ciss_end_pF, 100)`. -/
def ciss_range_pF (s e : ℚ) : List ℚ := linspace s e 100

/-- Grid converted to farads, line 43: `ciss_range_F = ciss_range_pF * 1e-12`. -/
def ciss_range_F (s e : ℚ) : List ℚ :=
  (ciss_range_pF s e).map (fun c => c * (1 / 10 ^ 12))

/-- One scenario of the sweep loop (lines 49-70): for a comparison frequency
`f_khz`, iterate over `ciss_range_F` appending `P_total` to `P_total_list`
and `T_j` to `T_j_list`. -/
def scenarioLists (p : Params) (s e f_khz : ℚ) : List ℚ × List ℚ :=
  let f_hz := f_khz * 1000
  (ciss_range_F s e).foldl
    (fun acc Ciss => (acc.1 ++ [P_total p Ciss f_hz], acc.2 ++ [T_j p Ciss f_hz]))
    ([], [])

/-- The outer loop over `freq_list_khz` (line 49), accumulating one row of
output per scenario in caller-supplied order. -/
def sweep (p : Params) (s e : ℚ) (freqs : List ℚ) : List (List ℚ × List ℚ) :=
  freqs.foldl (fun acc f_khz => acc ++ [scenarioLists p s e f_khz]) []

/-- Power slope, lines 81-85:
`slope_P = ((P_total_list[-1] - P_total_list[0]) / (ciss_range_pF[-1] - ciss_range_pF[0])) * 1000`. -/
def slope_P (p : Params) (s e f_khz : ℚ) : ℚ :=
  let Pl := (scenarioLists p s e f_khz).1
  let xs := ciss_range_pF s e
  (Pl.getLastD 0 - Pl.headD 0) / (xs.getLastD 0 - xs.headD 0) * 1000

/-- Temperature slope, lines 82-86:
`slope_T = ((T_j_list[-1] - T_j_list[0]) / (ciss_range_pF[-1] - ciss_range_pF[0])) * 1000`. -/
def slope_T (p : Params) (s e f_khz : ℚ) : ℚ :=
  let Tl := (scenarioLists p s e f_khz).2
  let xs := ciss_range_pF s e
  (Tl.getLastD 0 - Tl.headD 0) / (xs.getLastD 0 - xs.headD 0) * 1000

/-! ### Extended values for the degenerate-input behaviour

IEEE-754 float64 values abstracted as exact rationals extended with the two
infinities and NaN.  Only the shapes of operations the program can reach at a
degenerate input matter; finite-by-finite operations stay exact rationals. -/

/-- An IEEE-style extended value: a finite rational, plus infinity, minus
infinity, or NaN. -/
inductive Fl where
  | fin (q : ℚ)
  | inf
  | ninf
  | nan
deriving DecidableEq

/-- Whether an extended value is finite. -/
def Fl.isFinite : Fl → Bool
  | .fin _ => true
  | _ => false

/-- IEEE negation. -/
def Fl.neg : Fl → Fl
  | .fin q => .fin (-q)
  | .inf => .ninf
  | .ninf => .inf
  | .nan => .nan

/-- IEEE addition: NaN absorbs, opposite infinities give NaN, an infinity
absorbs finite values. -/
def Fl.add : Fl → Fl → Fl
  | .nan, _ => .nan
  | _, .nan => .nan
  | .fin a, .fin b => .fin (a + b)
  | .fin _, .inf => .inf
  | .fin _, .ninf => .ninf
  | .inf, .fin _ => .inf
  | .ninf, .fin _ => .ninf
  | .inf, .inf => .inf
  | .ninf, .ninf => .ninf
  | .inf, .ninf => .nan
  | .ninf, .inf => .nan

/-- IEEE subtraction. -/
def Fl.sub (x y : Fl) : Fl := Fl.add x (Fl.neg y)

/-- IEEE multiplication: NaN absorbs, zero times an infinity is NaN,
otherwise signs combine. -/
def Fl.mul : Fl → Fl → Fl
  | .nan, _ => .nan
  | _, .nan => .nan
  | .fin a, .fin b => .fin (a * b)
  | .fin a, .inf => if 0 < a then .inf else if a < 0 then .ninf else .nan
  | .fin a, .ninf => if 0 < a then .ninf else if a < 0 then .inf else .nan
  | .inf, .fin b => if 0 < b then .inf else if b < 0 then .ninf else .nan
  | .ninf, .fin b => if 0 < b then .ninf else if b < 0 then .inf else .nan
  | .inf, .inf => .inf
  | .inf, .ninf => .ninf
  | .ninf, .inf => .ninf
  | .ninf, .ninf => .inf

/-- numpy float64 division: a zero divisor produces an infinity (or NaN for
0/0) with a runtime warning, never an exception. -/
def Fl.divNp : Fl → Fl → Fl
  | .nan, _ => .nan
  | _, .nan => .nan
  | .fin a, .fin b =>
      if b = 0 then (if a = 0 then .nan else if 0 < a then .inf else .ninf)
      else .fin (a / b)
  | .fin _, .inf => .fin 0
  | .fin _, .ninf => .fin 0
  | .inf, .fin b => if 0 ≤ b then .inf else .ninf
  | .ninf, .fin b => if 0 ≤ b then .ninf else .inf
  | .inf, .inf => .nan
  | .inf, .ninf => .nan
  | .ninf, .inf => .nan
  | .ninf, .ninf => .nan

/-- Line 60 over extended values: `t_sw_estimated = (Ciss * V_drive) / I_driver`.
`Ciss` is a numpy float64, so this is numpy division: a zero `I_driver`
yields a non-finite value rather than an exception. -/
def t_swFl (p : Params) (Ciss : ℚ) : Fl :=
  Fl.divNp (.fin (Ciss * p.V_drive)) (.fin p.I_driver)

/-- Line 61 over extended values:
`P_sw = 0.5 * V_in * I_out * t_sw_estimated * f_hz` (left associated;
the prefix `0.5 * V_in * I_out` is a finite Python float product). -/
def P_swFl (p : Params) (Ciss f_hz : ℚ) : Fl :=
  Fl.mul (Fl.mul (.fin (1 / 2 * p.V_in * p.I_out)) (t_swFl p Ciss)) (.fin f_hz)

/-- Line 66 over extended values: `P_total = P_cond + P_sw + P_gate`, with the
finite conduction loss `Dq * I_out ** 2 * Rdson` (line 56) and the finite
gate loss `(Ciss * V_drive) * V_drive * f_hz` (line 64). -/
def P_totalFl (p : Params) (Dq Ciss f_hz : ℚ) : Fl :=
  Fl.add (Fl.add (.fin (Dq * p.I_out ^ 2 * p.Rdson)) (P_swFl p Ciss f_hz))
    (.fin (Ciss * p.V_drive * p.V_drive * f_hz))

/-- Line 69 over extended values: `T_j = Tamb + (P_total * Rtha)`. -/
def T_jFl (p : Params) (Dq Ciss f_hz : ℚ) : Fl :=
  Fl.add (.fin p.Tamb) (Fl.mul (P_totalFl p Dq Ciss f_hz) (.fin p.Rtha))

/-- One loop-body evaluation of the loss model (lines 56-69) over extended
values, given the duty cycle `Dq` already computed at line 44.
Returns `(P_total, T_j)`. -/
def pointFl (p : Params) (Dq Ciss f_hz : ℚ) : Fl × Fl :=
  (P_totalFl p Dq Ciss f_hz, T_jFl p Dq Ciss f_hz)

/-- The loss model at one operating point including the duty-cycle
computation of line 44.  `V_out / V_in` there is Python float division,
which raises `ZeroDivisionError` when `V_in = 0`; the raise is modelled as
`Except.error ()`. -/
def evalPointFl (p : Params) (Ciss f_hz : ℚ) : Except Unit (Fl × Fl) :=
  if p.V_in = 0 then .error ()
  else .ok (pointFl p (p.V_out / p.V_in) Ciss f_hz)

/-- One scenario of the sweep over extended values: the duty cycle of
line 44 is computed (by Python division) before any loop runs, so `V_in = 0`
aborts the whole computation; otherwise the loop of lines 58-70 builds
`P_total_list` and `T_j_list`. -/
def scenarioListsFl (p : Params) (s e f_khz : ℚ) : Except Unit (List Fl × List Fl) :=
  if p.V_in = 0 then .error ()
  else
    .ok ((ciss_range_F s e).foldl
      (fun acc Ciss =>
        (acc.1 ++ [(pointFl p (p.V_out / p.V_in) Ciss (f_khz * 1000)).1],
          acc.2 ++ [(pointFl p (p.V_out / p.V_in) Ciss (f_khz * 1000)).2]))
      ([], []))

/-- The slope computation of lines 81-86 over extended values: endpoint
differences of `P_total_list` and `T_j_list` divided (numpy division) by the
grid endpoint difference and rescaled by 1000. -/
def slopesFl (p : Params) (s e f_khz : ℚ) : Except Unit (Fl × Fl) :=
  match scenarioListsFl p s e f_khz with
  | .error u => .error u
  | .ok (Pl, Tl) =>
    let xs := ciss_range_pF s e
    let dC : ℚ := xs.getLastD 0 - xs.headD 0
    let sP := Fl.mul (Fl.divNp (Fl.sub (Pl.getLastD .nan) (Pl.headD .nan)) (.fin dC)) (.fin 1000)
    let sT := Fl.mul (Fl.divNp (Fl.sub (Tl.getLastD .nan) (Tl.headD .nan)) (.fin dC)) (.fin 1000)
    .ok (sP, sT)

/-! ### Supporting lemmas -/

theorem foldl_append_pair {α β γ : Type} (g : α → β) (h : α → γ) (l : List α)
    (A : List β) (B : List γ) :
    l.foldl (fun acc x => (acc.1 ++ [g x], acc.2 ++ [h x])) (A, B) =
      (A ++ l.map g, B ++ l.map h) := by
  induction l generalizing A B with
  | nil => simp
  | cons x xs ih => simp [List.foldl_cons, ih]

theorem foldl_append_single {α β : Type} (g : α → β) (l : List α) (A : List β) :
    l.foldl (fun acc x => acc ++ [g x]) A = A ++ l.map g := by
  induction l generalizing A with
  | nil => simp
  | cons x xs ih => simp [List.foldl_cons, ih]

theorem scenarioLists_eq (p : Params) (s e f_khz : ℚ) :
    scenarioLists p s e f_khz =
      ((ciss_range_F s e).map (fun C => P_total p C (f_khz * 1000)),
        (ciss_range_F s e).map (fun C => T_j p C (f_khz * 1000))) := by
  unfold scenarioLists
  rw [foldl_append_pair]
  simp

theorem sweep_eq_map (p : Params) (s e : ℚ) (freqs : List ℚ) :
    sweep p s e freqs = freqs.map (fun f => scenarioLists p s e f) := by
  unfold sweep
  rw [foldl_append_single]
  simp

theorem headD_map_range {β : Type} (n : ℕ) (hn : n ≠ 0) (f : ℕ → β) (d : β) :
    ((List.range n).map f).headD d = f 0 := by
  obtain ⟨m, rfl⟩ := Nat.exists_eq_succ_of_ne_zero hn
  rw [List.range_succ_eq_map]
  simp

theorem getLastD_map_range {β : Type} (n : ℕ) (hn : n ≠ 0) (f : ℕ → β) (d : β) :
    ((List.range n).map f).getLastD d = f (n - 1) := by
  obtain ⟨m, rfl⟩ := Nat.exists_eq_succ_of_ne_zero hn
  rw [List.range_succ, List.map_append]
  simp

theorem getD_map_range {β : Type} (n i : ℕ) (hi : i < n) (f : ℕ → β) (d : β) :
    ((List.range n).map f).getD i d = f i := by
  rw [List.getD_eq_getElem _ _ (by simpa using hi)]
  simp

theorem getD_map_lt {α β : Type} (f : α → β) (l : List α) (i : ℕ)
    (hi : i < l.length) (d : α) (d' : β) :
    (l.map f).getD i d' = f (l.getD i d) := by
  rw [List.getD_eq_getElem _ _ (by simpa using hi), List.getD_eq_getElem _ _ hi]
  simp

theorem linspace_length (a b : ℚ) (n : ℕ) : (linspace a b n).length = n := by
  simp [linspace]

theorem linspace_headD (a b : ℚ) : (linspace a b 100).headD 0 = a := by
  rw [linspace, headD_map_range 100 (by norm_num)]
  simp

theorem linspace_getLastD (a b : ℚ) : (linspace a b 100).getLastD 0 = b := by
  rw [linspace, getLastD_map_range 100 (by norm_num)]
  norm_num

theorem linspace_getD (a b : ℚ) (i : ℕ) (hi : i < 100) :
    (linspace a b 100).getD i 0 = a + (b - a) * i / 99 := by
  rw [linspace, getD_map_range 100 i hi]
  norm_num

theorem ciss_range_pF_length (s e : ℚ) : (ciss_range_pF s e).length = 100 := by
  simp [ciss_range_pF, linspace_length]

theorem ciss_range_F_length (s e : ℚ) : (ciss_range_F s e).length = 100 := by
  simp [ciss_range_F, ciss_range_pF_length]

theorem ciss_range_F_getD (s e : ℚ) (i : ℕ) (hi : i < 100) :
    (ciss_range_F s e).getD i 0 = (ciss_range_pF s e).getD i 0 * (1 / 10 ^ 12) := by
  rw [ciss_range_F, getD_map_lt _ _ i (by rw [ciss_range_pF_length]; exact hi) 0 0]

theorem ciss_range_F_headD (s e : ℚ) :
    (ciss_range_F s e).headD 0 = s * (1 / 10 ^ 12) := by
  rw [ciss_range_F, ciss_range_pF, linspace, List.map_map,
    headD_map_range 100 (by norm_num)]
  simp

theorem ciss_range_F_getLastD (s e : ℚ) :
    (ciss_range_F s e).getLastD 0 = e * (1 / 10 ^ 12) := by
  rw [ciss_range_F, ciss_range_pF, linspace, List.map_map,
    getLastD_map_range 100 (by norm_num)]
  norm_num

theorem headD_map_ciss {β : Type} (s e : ℚ) (g : ℚ → β) (d : β) :
    ((ciss_range_F s e).map g).headD d = g (s * (1 / 10 ^ 12)) := by
  rw [ciss_range_F, ciss_range_pF, linspace, List.map_map, List.map_map,
    headD_map_range 100 (by norm_num)]
  norm_num

theorem getLastD_map_ciss {β : Type} (s e : ℚ) (g : ℚ → β) (d : β) :
    ((ciss_range_F s e).map g).getLastD d = g (e * (1 / 10 ^ 12)) := by
  rw [ciss_range_F, ciss_range_pF, linspace, List.map_map, List.map_map,
    getLastD_map_range 100 (by norm_num)]
  norm_num

theorem Plist_headD (p : Params) (s e f_khz : ℚ) :
    (scenarioLists p s e f_khz).1.headD 0 =
      P_total p (s * (1 / 10 ^ 12)) (f_khz * 1000) := by
  rw [scenarioLists_eq]
  exact headD_map_ciss s e (fun C => P_total p C (f_khz * 1000)) 0

theorem Plist_getLastD (p : Params) (s e f_khz : ℚ) :
    (scenarioLists p s e f_khz).1.getLastD 0 =
      P_total p (e * (1 / 10 ^ 12)) (f_khz * 1000) := by
  rw [scenarioLists_eq]
  exact getLastD_map_ciss s e (fun C => P_total p C (f_khz * 1000)) 0

theorem Tlist_headD (p : Params) (s e f_khz : ℚ) :
    (scenarioLists p s e f_khz).2.headD 0 =
      T_j p (s * (1 / 10 ^ 12)) (f_khz * 1000) := by
  rw [scenarioLists_eq]
  exact headD_map_ciss s e (fun C => T_j p C (f_khz * 1000)) 0

theorem Tlist_getLastD (p : Params) (s e f_khz : ℚ) :
    (scenarioLists p s e f_khz).2.getLastD 0 =
      T_j p (e * (1 / 10 ^ 12)) (f_khz * 1000) := by
  rw [scenarioLists_eq]
  exact getLastD_map_ciss s e (fun C => T_j p C (f_khz * 1000)) 0

theorem slope_P_endpoints (p : Params) (s e f_khz : ℚ) :
    slope_P p s e f_khz =
      (P_total p (e * (1 / 10 ^ 12)) (f_khz * 1000) -
        P_total p (s * (1 / 10 ^ 12)) (f_khz * 1000)) / (e - s) * 1000 := by
  simp only [slope_P]
  rw [Plist_getLastD, Plist_headD, ciss_range_pF, linspace_getLastD, linspace_headD]

theorem slope_T_endpoints (p : Params) (s e f_khz : ℚ) :
    slope_T p s e f_khz =
      (T_j p (e * (1 / 10 ^ 12)) (f_khz * 1000) -
        T_j p (s * (1 / 10 ^ 12)) (f_khz * 1000)) / (e - s) * 1000 := by
  simp only [slope_T]
  rw [Tlist_getLastD, Tlist_headD, ciss_range_pF, linspace_getLastD, linspace_headD]

/-! ### Lemmas about extended values -/

theorem Fl.add_fin_nonfin (a : ℚ) (x : Fl) (h : x.isFinite = false) :
    (Fl.add (.fin a) x).isFinite = false := by
  cases x with
  | fin q => simp [Fl.isFinite] at h
  | inf => rfl
  | ninf => rfl
  | nan => rfl

theorem Fl.add_nonfin_fin (b : ℚ) (x : Fl) (h : x.isFinite = false) :
    (Fl.add x (.fin b)).isFinite = false := by
  cases x with
  | fin q => simp [Fl.isFinite] at h
  | inf => rfl
  | ninf => rfl
  | nan => rfl

theorem Fl.mul_fin_nonfin (a : ℚ) (x : Fl) (h : x.isFinite = false) :
    (Fl.mul (.fin a) x).isFinite = false := by
  cases x with
  | fin q => simp [Fl.isFinite] at h
  | inf => simp only [Fl.mul]; split_ifs <;> rfl
  | ninf => simp only [Fl.mul]; split_ifs <;> rfl
  | nan => rfl

theorem Fl.mul_nonfin_fin (b : ℚ) (x : Fl) (h : x.isFinite = false) :
    (Fl.mul x (.fin b)).isFinite = false := by
  cases x with
  | fin q => simp [Fl.isFinite] at h
  | inf => simp only [Fl.mul]; split_ifs <;> rfl
  | ninf => simp only [Fl.mul]; split_ifs <;> rfl
  | nan => rfl

theorem Fl.divNp_fin_zero (a : ℚ) :
    (Fl.divNp (.fin a) (.fin 0)).isFinite = false := by
  simp only [Fl.divNp, if_pos rfl]
  split_ifs <;> rfl

theorem Fl.sub_self_div_zero_scaled (v : Fl) :
    Fl.mul (Fl.divNp (Fl.sub v v) (.fin 0)) (.fin 1000) = Fl.nan := by
  cases v with
  | fin q => simp [Fl.sub, Fl.neg, Fl.add, Fl.divNp, Fl.mul]
  | inf => rfl
  | ninf => rfl
  | nan => rfl

theorem P_totalFl_nonfin (p : Params) (Dq Ciss f_hz : ℚ) (hI : p.I_driver = 0) :
    (P_totalFl p Dq Ciss f_hz).isFinite = false := by
  have ht : (t_swFl p Ciss).isFinite = false := by
    rw [t_swFl, hI]
    exact Fl.divNp_fin_zero _
  have hsw : (P_swFl p Ciss f_hz).isFinite = false :=
    Fl.mul_nonfin_fin _ _ (Fl.mul_fin_nonfin _ _ ht)
  exact Fl.add_nonfin_fin _ _ (Fl.add_fin_nonfin _ _ hsw)

theorem T_jFl_nonfin (p : Params) (Dq Ciss f_hz : ℚ) (hI : p.I_driver = 0) :
    (T_jFl p Dq Ciss f_hz).isFinite = false :=
  Fl.add_fin_nonfin _ _ (Fl.mul_nonfin_fin _ _ (P_totalFl_nonfin p Dq Ciss f_hz hI))

theorem scenarioListsFl_eq (p : Params) (s e f_khz : ℚ) (hV : p.V_in ≠ 0) :
    scenarioListsFl p s e f_khz =
      .ok ((ciss_range_F s e).map
            (fun C => (pointFl p (p.V_out / p.V_in) C (f_khz * 1000)).1),
          (ciss_range_F s e).map
            (fun C => (pointFl p (p.V_out / p.V_in) C (f_khz * 1000)).2)) := by
  unfold scenarioListsFl
  rw [if_neg hV, foldl_append_pair]
  simp

/-! ### Concrete inputs used by witnesses and counterexamples -/

/-- The default sidebar parameter set of src/app.py:
Vin 24 V, Vout 12 V, Vdrive 10 V, Idriver 1 A, Iout 10 A, Rdson 10 mΩ,
Rth_ja 40 °C/W, Tamb 25 °C. -/
def p0 : Params := ⟨24, 12, 10, 1, 10, 1 / 100, 40, 25⟩

/-- The default parameter set with the input voltage forced to zero. -/
def pV0 : Params := ⟨0, 12, 10, 1, 10, 1 / 100, 40, 25⟩

/-- The default parameter set with the driver current forced to zero. -/
def pI0 : Params := ⟨24, 12, 10, 0, 10, 1 / 100, 40, 25⟩

/-! ### Claims -/

/-- C1: for every operating point with nonzero input voltage and nonzero
driver current, the loss model computes exactly
P_cond = (Vout/Vin) * Iout^2 * Rdson, t_sw_est = (Ciss * Vdrive) / Idriver,
P_sw = 0.5 * Vin * Iout * t_sw_est * Fsw, and P_gate = Ciss * Vdrive^2 * Fsw. -/
theorem C1_loss_model_formulas (p : Params) (Ciss f_hz : ℚ)
    (hV : p.V_in ≠ 0) (hI : p.I_driver ≠ 0) :
    P_cond p = p.V_out / p.V_in * p.I_out ^ 2 * p.Rdson ∧
    t_sw_estimated p Ciss = Ciss * p.V_drive / p.I_driver ∧
    P_sw p Ciss f_hz =
      1 / 2 * p.V_in * p.I_out * (Ciss * p.V_drive / p.I_driver) * f_hz ∧
    P_gate p Ciss f_hz = Ciss * p.V_drive ^ 2 * f_hz := by
  refine ⟨rfl, rfl, rfl, ?_⟩
  unfold P_gate
  ring

theorem C1_loss_model_formulas_witness :
    P_cond p0 = p0.V_out / p0.V_in * p0.I_out ^ 2 * p0.Rdson ∧
    t_sw_estimated p0 1 = 1 * p0.V_drive / p0.I_driver ∧
    P_sw p0 1 2 = 1 / 2 * p0.V_in * p0.I_out * (1 * p0.V_drive / p0.I_driver) * 2 ∧
    P_gate p0 1 2 = 1 * p0.V_drive ^ 2 * 2 :=
  C1_loss_model_formulas p0 1 2 (by norm_num [p0]) (by norm_num [p0])

/-- C2: in the capacitance sweep the program implements, every grid point of
every scenario has P_total equal to the sum of conduction, switching and
gate-drive losses. -/
theorem C2_total_includes_gate (p : Params) (s e f_khz : ℚ) (i : ℕ)
    (hi : i < 100) :
    (scenarioLists p s e f_khz).1.getD i 0 =
      P_cond p + P_sw p ((ciss_range_F s e).getD i 0) (f_khz * 1000) +
        P_gate p ((ciss_range_F s e).getD i 0) (f_khz * 1000) := by
  rw [scenarioLists_eq]
  exact getD_map_lt (fun C => P_total p C (f_khz * 1000)) (ciss_range_F s e) i
    (by rw [ciss_range_F_length]; exact hi) 0 0

theorem C2_total_includes_gate_witness :
    (scenarioLists p0 500 5000 100).1.getD 0 0 =
      P_cond p0 + P_sw p0 ((ciss_range_F 500 5000).getD 0 0) (100 * 1000) +
        P_gate p0 ((ciss_range_F 500 5000).getD 0 0) (100 * 1000) :=
  C2_total_includes_gate p0 500 5000 100 0 (by norm_num)

/-- C3: the junction temperature is exactly Tj = Tamb + P_total * Rth_ja,
and depends on nothing but P_total, Rth_ja and Tamb: two operating points
agreeing on those three values get the same Tj. -/
theorem C3_thermal_deterministic (p q : Params) (Ciss f_hz Ciss2 f_hz2 : ℚ) :
    T_j p Ciss f_hz = p.Tamb + P_total p Ciss f_hz * p.Rtha ∧
    (P_total p Ciss f_hz = P_total q Ciss2 f_hz2 → p.Rtha = q.Rtha →
      p.Tamb = q.Tamb → T_j p Ciss f_hz = T_j q Ciss2 f_hz2) := by
  refine ⟨rfl, fun h1 h2 h3 => ?_⟩
  unfold T_j
  rw [h1, h2, h3]

theorem C3_thermal_deterministic_witness :
    T_j p0 1 2 = p0.Tamb + P_total p0 1 2 * p0.Rtha ∧ T_j p0 1 2 = T_j p0 1 2 :=
  ⟨(C3_thermal_deterministic p0 p0 1 2 1 2).1,
    (C3_thermal_deterministic p0 p0 1 2 1 2).2 rfl rfl rfl⟩

/-- C4: with distinct sweep endpoints, the reported slopes are exactly the
two-endpoint secants of the output sequences — model value at the last grid
point (Ciss = e pF) minus model value at the first grid point (Ciss = s pF),
divided by the swept-axis endpoint difference in pF — multiplied by the
per-nanofarad unit scale 1000; no interior sample contributes. -/
theorem C4_endpoint_secant (p : Params) (s e f_khz : ℚ) (h : e ≠ s) :
    slope_P p s e f_khz =
      (P_total p (e * (1 / 10 ^ 12)) (f_khz * 1000) -
        P_total p (s * (1 / 10 ^ 12)) (f_khz * 1000)) / (e - s) * 1000 ∧
    slope_T p s e f_khz =
      (T_j p (e * (1 / 10 ^ 12)) (f_khz * 1000) -
        T_j p (s * (1 / 10 ^ 12)) (f_khz * 1000)) / (e - s) * 1000 :=
  ⟨slope_P_endpoints p s e f_khz, slope_T_endpoints p s e f_khz⟩

theorem C4_endpoint_secant_witness :
    slope_P p0 500 5000 100 =
      (P_total p0 (5000 * (1 / 10 ^ 12)) (100 * 1000) -
        P_total p0 (500 * (1 / 10 ^ 12)) (100 * 1000)) / (5000 - 500) * 1000 ∧
    slope_T p0 500 5000 100 =
      (T_j p0 (5000 * (1 / 10 ^ 12)) (100 * 1000) -
        T_j p0 (500 * (1 / 10 ^ 12)) (100 * 1000)) / (5000 - 500) * 1000 :=
  C4_endpoint_secant p0 500 5000 100 (by norm_num)

/-- C5: the grid is an ordered list of exactly 100 evenly spaced values from
axisStart to axisEnd inclusive, independent of the scenario, and each
scenario's output evaluates the loss model once at every grid point. -/
theorem C5_grid_and_evaluation (p : Params) (s e f_khz : ℚ) :
    (ciss_range_pF s e).length = 100 ∧
    (ciss_range_pF s e).headD 0 = s ∧
    (ciss_range_pF s e).getLastD 0 = e ∧
    (∀ i : ℕ, i + 1 < 100 →
      (ciss_range_pF s e).getD (i + 1) 0 - (ciss_range_pF s e).getD i 0 =
        (e - s) / 99) ∧
    (scenarioLists p s e f_khz).1.length = 100 ∧
    (∀ i : ℕ, i < 100 →
      (scenarioLists p s e f_khz).1.getD i 0 =
        P_total p ((ciss_range_pF s e).getD i 0 * (1 / 10 ^ 12)) (f_khz * 1000)) := by
  refine ⟨ciss_range_pF_length s e, ?_, ?_, ?_, ?_, ?_⟩
  · rw [ciss_range_pF]; exact linspace_headD s e
  · rw [ciss_range_pF]; exact linspace_getLastD s e
  · intro i hi
    rw [ciss_range_pF, linspace_getD s e (i + 1) hi, linspace_getD s e i (by omega)]
    push_cast
    ring
  · rw [scenarioLists_eq]
    simp [ciss_range_F_length]
  · intro i hi
    rw [scenarioLists_eq]
    have h := getD_map_lt (fun C => P_total p C (f_khz * 1000)) (ciss_range_F s e) i
      (by rw [ciss_range_F_length]; exact hi) 0 0
    rw [ciss_range_F_getD s e i hi] at h
    exact h

theorem C5_grid_and_evaluation_witness :
    (ciss_range_pF 500 5000).getD 1 0 - (ciss_range_pF 500 5000).getD 0 0 =
      (5000 - 500) / 99 ∧
    (scenarioLists p0 500 5000 100).1.getD 0 0 =
      P_total p0 ((ciss_range_pF 500 5000).getD 0 0 * (1 / 10 ^ 12)) (100 * 1000) :=
  ⟨(C5_grid_and_evaluation p0 500 5000 100).2.2.2.1 0 (by norm_num),
    (C5_grid_and_evaluation p0 500 5000 100).2.2.2.2.2 0 (by norm_num)⟩

/-- C6 counterexample: at the concrete operating point with Vin = 0 (all
other inputs at their defaults), the loss model raises — `V_out / V_in` at
line 44 is Python float division, which raises ZeroDivisionError — instead
of propagating a non-finite value; the sweep aborts with the same exception
before producing any output sequence. -/
theorem C6_claim_counterexample :
    evalPointFl pV0 (5 / 10 ^ 10) 100000 = Except.error () ∧
    scenarioListsFl pV0 500 5000 100 = Except.error () :=
  ⟨rfl, rfl⟩

/-- C6 amended: for every input with Idriver = 0 and Vin ≠ 0 the loss model
does not raise and the resulting non-finite value is propagated into the
output sequence at every grid point; for Vin = 0, however, the duty-cycle
computation raises a ZeroDivisionError at computation time (Python float
division) rather than propagating a non-finite value. -/
theorem C6_amended_propagation (p : Params) (s e f_khz Ciss f_hz : ℚ)
    (hI : p.I_driver = 0) (hV : p.V_in ≠ 0) :
    evalPointFl p Ciss f_hz =
      .ok (P_totalFl p (p.V_out / p.V_in) Ciss f_hz,
        T_jFl p (p.V_out / p.V_in) Ciss f_hz) ∧
    (P_totalFl p (p.V_out / p.V_in) Ciss f_hz).isFinite = false ∧
    (T_jFl p (p.V_out / p.V_in) Ciss f_hz).isFinite = false ∧
    (∃ Pl Tl, scenarioListsFl p s e f_khz = .ok (Pl, Tl) ∧ Pl.length = 100 ∧
      Tl.length = 100 ∧ (∀ x ∈ Pl, x.isFinite = false) ∧
      (∀ x ∈ Tl, x.isFinite = false)) := by
  refine ⟨?_, P_totalFl_nonfin p _ Ciss f_hz hI, T_jFl_nonfin p _ Ciss f_hz hI, ?_⟩
  · unfold evalPointFl
    rw [if_neg hV]
    rfl
  refine ⟨_, _, scenarioListsFl_eq p s e f_khz hV, ?_, ?_, ?_, ?_⟩
  · simp [ciss_range_F_length]
  · simp [ciss_range_F_length]
  · intro x hx
    simp only [List.mem_map] at hx
    obtain ⟨C, _, rfl⟩ := hx
    exact P_totalFl_nonfin p _ C _ hI
  · intro x hx
    simp only [List.mem_map] at hx
    obtain ⟨C, _, rfl⟩ := hx
    exact T_jFl_nonfin p _ C _ hI

theorem C6_amended_propagation_witness :
    evalPointFl pI0 (5 / 10 ^ 10) 100000 =
      .ok (P_totalFl pI0 (pI0.V_out / pI0.V_in) (5 / 10 ^ 10) 100000,
        T_jFl pI0 (pI0.V_out / pI0.V_in) (5 / 10 ^ 10) 100000) ∧
    (P_totalFl pI0 (pI0.V_out / pI0.V_in) (5 / 10 ^ 10) 100000).isFinite = false ∧
    (T_jFl pI0 (pI0.V_out / pI0.V_in) (5 / 10 ^ 10) 100000).isFinite = false :=
  ⟨(C6_amended_propagation pI0 500 5000 100 (5 / 10 ^ 10) 100000 rfl
      (by norm_num [pI0])).1,
    (C6_amended_propagation pI0 500 5000 100 (5 / 10 ^ 10) 100000 rfl
      (by norm_num [pI0])).2.1,
    (C6_amended_propagation pI0 500 5000 100 (5 / 10 ^ 10) 100000 rfl
      (by norm_num [pI0])).2.2.1⟩

/-- C7: for every parameter set and scenario, a zero-width sweep
(axisStart = axisEnd) makes the slope computation surface a
division-by-zero condition — either the whole computation errors out
(Vin = 0) or both slopes are NaN — never a silently wrong finite value. -/
theorem C7_zero_width_slope_nonfinite (p : Params) (s f_khz : ℚ) :
    slopesFl p s s f_khz = Except.error () ∨
    slopesFl p s s f_khz = Except.ok (Fl.nan, Fl.nan) := by
  by_cases hV : p.V_in = 0
  · left
    unfold slopesFl scenarioListsFl
    rw [if_pos hV]
  · right
    have hs := scenarioListsFl_eq p s s f_khz hV
    simp only [slopesFl, hs, getLastD_map_ciss, headD_map_ciss, ciss_range_pF,
      linspace_getLastD, linspace_headD]
    rw [sub_self, Fl.sub_self_div_zero_scaled, Fl.sub_self_div_zero_scaled]

/-- C8: at a valid operating point with Ciss = 0 and Fsw = 0, switching and
gate losses vanish exactly and the total reduces to the conduction loss
(Vout/Vin) * Iout^2 * Rdson. -/
theorem C8_zero_ciss_fsw (p : Params) (hV : p.V_in ≠ 0) (hI : p.I_driver ≠ 0) :
    P_sw p 0 0 = 0 ∧ P_gate p 0 0 = 0 ∧ P_total p 0 0 = P_cond p ∧
    P_cond p = p.V_out / p.V_in * p.I_out ^ 2 * p.Rdson := by
  have h1 : P_sw p 0 0 = 0 := by
    unfold P_sw t_sw_estimated
    ring
  have h2 : P_gate p 0 0 = 0 := by
    unfold P_gate
    ring
  exact ⟨h1, h2, by unfold P_total; rw [h1, h2]; ring, rfl⟩

theorem C8_zero_ciss_fsw_witness :
    P_sw p0 0 0 = 0 ∧ P_gate p0 0 0 = 0 ∧ P_total p0 0 0 = P_cond p0 ∧
    P_cond p0 = p0.V_out / p0.V_in * p0.I_out ^ 2 * p0.Rdson :=
  C8_zero_ciss_fsw p0 (by norm_num [p0]) (by norm_num [p0])

/-- C9: the sweep output is one row per scenario in caller-supplied order,
each row a function of its own scenario value only, so permuting the
scenario list permutes the output rows identically. -/
theorem C9_scenario_permutation (p : Params) (s e : ℚ) (l l2 : List ℚ)
    (h : l.Perm l2) :
    (sweep p s e l).Perm (sweep p s e l2) ∧
    sweep p s e l = l.map (fun f => scenarioLists p s e f) ∧
    (∀ i : ℕ, i < l.length →
      (sweep p s e l).getD i ([], []) = scenarioLists p s e (l.getD i 0)) := by
  refine ⟨?_, sweep_eq_map p s e l, ?_⟩
  · rw [sweep_eq_map, sweep_eq_map]
    exact h.map _
  · intro i hi
    rw [sweep_eq_map]
    exact getD_map_lt _ l i hi 0 ([], [])

theorem C9_scenario_permutation_witness :
    (sweep p0 500 5000 [100, 200, 300]).Perm (sweep p0 500 5000 [200, 100, 300]) ∧
    (sweep p0 500 5000 [100, 200, 300]).getD 1 ([], []) =
      scenarioLists p0 500 5000 200 := by
  have h := C9_scenario_permutation p0 500 5000 [100, 200, 300] [200, 100, 300]
    (List.Perm.swap 200 100 [300])
  refine ⟨h.1, ?_⟩
  have h2 := h.2.2 1 (by norm_num)
  simpa using h2

/-- C10: with distinct sweep endpoints, the reported temperature slope is the
power slope multiplied by the thermal resistance, because Tj is the affine
map Tamb + Rth_ja * P_total of P_total. -/
theorem C10_thermal_slope_factor (p : Params) (s e f_khz : ℚ) (h : s ≠ e) :
    slope_T p s e f_khz = slope_P p s e f_khz * p.Rtha := by
  rw [slope_P_endpoints, slope_T_endpoints]
  unfold T_j
  ring

theorem C10_thermal_slope_factor_witness :
    slope_T p0 500 5000 100 = slope_P p0 500 5000 100 * p0.Rtha :=
  C10_thermal_slope_factor p0 500 5000 100 (by norm_num)

end BuckSim
